import Mathlib

/-!
Verification development for the Proxy Resilience Engine of the
`scrape_google` repository.  The Python sources under `src/` are shallowly
embedded below: pure computations become Lean functions, the mutable
`ProxyManager` object becomes explicit state passing on `PMState`, network
and filesystem effects (harvester runs, cache loads, the selenium driver,
`_save_proxy_lists`) are modelled as explicit oracle parameters or as an
append-only log carried in the state.
-/

/-! ## Proxy pool manager (src/src/proxy_manager.py)

A proxy dictionary is reduced to the fields the manager inspects: its
identity (the `http` endpoint string, dictionaries are compared by
structural equality just as Python `==` compares dicts) and the `direct`
flag (`proxy.get('direct', False)`; the key is absent on harvested
proxies, which we model as `direct := false`).
-/

structure Proxy where
  http : String
  direct : Bool
deriving DecidableEq, Repr

/-- The direct-connection sentinel `{"direct": True}` returned by
`get_next_proxy` when the failure threshold is reached. -/
def directSentinel : Proxy := { http := "", direct := true }

/-- State of a `ProxyManager` instance.  `save_log` models the filesystem
snapshots written by `_save_proxy_lists`: each call prepends the pair of
lists it serialises (persistence I/O errors are out of scope, the write is
modelled as always succeeding). -/
structure PMState where
  working_proxies : List Proxy
  blacklisted_proxies : List Proxy
  proxy_index : Nat
  consecutive_proxy_failures : Nat
  max_proxy_failures : Nat
  allow_direct_connection : Bool
  save_log : List (List Proxy × List Proxy)
deriving DecidableEq, Repr

/-- `ProxyManager._save_proxy_lists`: dumps the current working and
blacklisted lists to a JSON snapshot, modelled as prepending to `save_log`. -/
def save_proxy_lists (s : PMState) : PMState :=
  { s with save_log := (s.working_proxies, s.blacklisted_proxies) :: s.save_log }

/-- `ProxyManager.blacklist_proxy`: no-op on the direct sentinel; otherwise
appends the proxy to the blacklist unless already present, removes the
first occurrence from the working list (`list.remove`), then saves. -/
def blacklist_proxy (p : Proxy) (s : PMState) : PMState :=
  if p.direct then s
  else
    let s1 :=
      if p ∈ s.blacklisted_proxies then s
      else { s with blacklisted_proxies := s.blacklisted_proxies ++ [p] }
    let s2 := { s1 with working_proxies := s1.working_proxies.erase p }
    save_proxy_lists s2

/-- `ProxyManager.report_proxy_failure`: increments the consecutive failure
counter and blacklists the proxy. -/
def report_proxy_failure (p : Proxy) (s : PMState) : PMState :=
  blacklist_proxy p
    { s with consecutive_proxy_failures := s.consecutive_proxy_failures + 1 }

/-- `ProxyManager.report_proxy_success`: resets the failure counter. -/
def report_proxy_success (s : PMState) : PMState :=
  { s with consecutive_proxy_failures := 0 }

/-- `ProxyManager.refresh_proxies`: runs the harvester (an external
collaborator, its output is the parameter `harvest`); on a non-empty
result it replaces the working list and resets the cursor. -/
def refresh_proxies (harvest : List Proxy) (s : PMState) : Bool × PMState :=
  if harvest.isEmpty then (false, s)
  else (true, { s with working_proxies := harvest, proxy_index := 0 })

/-- External world seen by `get_next_proxy`: the cached proxy files on
disk and the output a harvester run would produce.
`cached = some ps` with `ps` non-empty models a successful
`_load_proxies_from_cache`; `none` or an empty list model the failure
paths (no file, stale file, malformed file, empty file). -/
structure HarvestEnv where
  cached : Option (List Proxy)
  harvest : List Proxy

/-- `ProxyManager._load_proxies_from_cache`, abstracted over the
filesystem: a successful load installs a non-empty working list and
returns `true`; every failure path returns `false` leaving the state
unchanged. -/
def load_proxies_from_cache (env : HarvestEnv) (s : PMState) : Bool × PMState :=
  match env.cached with
  | none => (false, s)
  | some ps => if ps.isEmpty then (false, s)
               else (true, { s with working_proxies := ps })

/-- The empty-pool recovery prefix of `get_next_proxy` (cache load, then
harvester refresh, then the direct/None early returns).  The first
component is `some r` when the source code returns `r` early, `none` when
control falls through to the rotation step. -/
def step_load (env : HarvestEnv) (s : PMState) : Option (Option Proxy) × PMState :=
  if s.working_proxies.isEmpty then
    let res := load_proxies_from_cache env s
    if res.fst then (none, res.snd)
    else
      let res2 := refresh_proxies env.harvest res.snd
      if res2.fst then (none, res2.snd)
      else if res2.snd.allow_direct_connection then (some (some directSentinel), res2.snd)
      else (some none, res2.snd)
  else (none, s)

/-- `ProxyManager.get_next_proxy`: direct sentinel once the consecutive
failure threshold is reached (with direct connections allowed), otherwise
refill an empty pool from cache or harvester, then return the proxy at the
rotation cursor, wrapping the cursor to 0 when it ran past the end, and
advance it. -/
def get_next_proxy (env : HarvestEnv) (s : PMState) : Option Proxy × PMState :=
  if s.max_proxy_failures ≤ s.consecutive_proxy_failures ∧
      s.allow_direct_connection = true then
    (some directSentinel, s)
  else
    match step_load env s with
    | (some r, s1) => (r, s1)
    | (none, s1) =>
      match s1.working_proxies with
      | [] => (none, s1)
      | q :: rest =>
        if hle : (q :: rest).length ≤ s1.proxy_index then
          (some ((q :: rest).get ⟨0, Nat.succ_pos _⟩),
           { s1 with proxy_index := 1 })
        else
          (some ((q :: rest).get ⟨s1.proxy_index, Nat.lt_of_not_le hle⟩),
           { s1 with proxy_index := s1.proxy_index + 1 })

/-! ## Proxy harvester records and scoring (src/src/proxy_harvester.py)

Tested proxy records keep the fields the scorer, selector and batch
tester inspect.  Optional dictionary keys become `Option` fields; the
`.get(key, default)` accesses of the source are the `*_key` helpers
below.  Response times (Python floats used only in threshold comparisons
and sort keys) are modelled as rationals. -/

structure ProxyRecord where
  http : String
  https : Option String
  ip : String
  response_time : Option ℚ
  anonymity : Option String
  score : Option Nat
deriving DecidableEq, Repr

/-- Python truthiness of `proxy.get("https")`: an absent key or an empty
string is falsy, any other string truthy. -/
def truthyStr : Option String → Bool
  | none => false
  | some s => !(s == "")

/-- The sort and threshold key `proxy.get("response_time", 999)`. -/
def response_time_key (p : ProxyRecord) : ℚ := p.response_time.getD 999

/-- The key `proxy.get("anonymity", "transparent")`. -/
def anonymity_key (p : ProxyRecord) : String := p.anonymity.getD "transparent"

/-- The key `proxy.get("score", 0)` used by the selection sort. -/
def score_key (p : ProxyRecord) : Nat := p.score.getD 0

/-- The threshold 0.5 s of the top speed bucket, written as a raw
reduced fraction (1/2) so that it evaluates by kernel reduction. -/
def half : ℚ := ⟨1, 2, by decide, Nat.coprime_one_left 2⟩

/-- The scoring loop body of `ProxyHarvester.select_best_proxies`:
speed points (50/40/30/20/10 by the latency thresholds), anonymity points
(30/20/10) and an HTTPS bonus (20). -/
def computeScore (p : ProxyRecord) : Nat :=
  (if response_time_key p < half then 50
   else if response_time_key p < 1 then 40
   else if response_time_key p < 2 then 30
   else if response_time_key p < 3 then 20
   else 10)
  + (if anonymity_key p = "elite" then 30
     else if anonymity_key p = "anonymous" then 20
     else 10)
  + (if truthyStr p.https then 20 else 0)

/-- The in-place mutation `proxy["score"] = score` performed on every
input record by `select_best_proxies`. -/
def scoreRecord (p : ProxyRecord) : ProxyRecord :=
  { p with score := some (computeScore p) }

/-- `ProxyHarvester.select_best_proxies`.  Python `sorted` is a stable
sort; it is modelled by `List.insertionSort`, which is also stable (with
`reverse=True` rendered as sorting with the flipped key comparison).
Because the source mutates each input dictionary in place (adding the
`score` key) before sorting a copy of the list, the embedding returns a
pair: the input records as the caller sees them after the call, and the
selected best records. -/
def select_best_proxies (proxies : List ProxyRecord) (count : Nat) :
    List ProxyRecord × List ProxyRecord :=
  if proxies.isEmpty then (proxies, [])
  else
    let scored := proxies.map scoreRecord
    let sorted_proxies := scored.insertionSort (fun a b => score_key b ≤ score_key a)
    (scored, sorted_proxies.take count)

/-- `ProxyHarvester._check_anonymity` (the proxy address is
`proxy.get("ip", "")`, the `ip` field of the record). -/
def check_anonymity (proxy : ProxyRecord) (returned_ip : String) : String :=
  if returned_ip ≠ proxy.ip ∧ returned_ip ≠ "unknown" then "elite"
  else if returned_ip = proxy.ip then "anonymous"
  else "transparent"

/-- An observed origin address is resolvable when the echo endpoint
yielded a concrete address, i.e. the `returned_ip` is not the marker
`"unknown"` used when the response format is not recognised. -/
def resolvable (returned_ip : String) : Bool := !(returned_ip == "unknown")

/-- The anonymity classification exactly as the claim words it: elite if
the observed origin address neither matches the proxy address nor is
resolvable; anonymous if it matches the proxy address; transparent
otherwise. -/
def claimAnonymity (proxy : ProxyRecord) (returned_ip : String) : String :=
  if returned_ip ≠ proxy.ip ∧ ¬ resolvable returned_ip = true then "elite"
  else if returned_ip = proxy.ip then "anonymous"
  else "transparent"

/-- `ProxyHarvester.test_proxies`.  The single-proxy trial `test_proxy`
performs network I/O and is abstracted as the oracle `test_proxy_result`
(`none` models every failure path, `some r` the record updated with the
measured fields).  The thread pool completes futures in an arbitrary
order; `completed` is the batch in completion order (any permutation of
the submitted batch).  The collected successes are finally sorted by
`response_time` (fastest first) with the stable sort. -/
def test_proxies (test_proxy_result : ProxyRecord → Option ProxyRecord)
    (completed : List ProxyRecord) : List ProxyRecord :=
  (completed.filterMap test_proxy_result).insertionSort
    (fun a b => response_time_key a ≤ response_time_key b)

/-! ## Error handler (src/src/error_handler.py)

The selenium driver is an external collaborator; the page conditions the
handler reads from it become the boolean fields of `PageState`, and the
effects it triggers (calls to the report-proxy-error callback, calls to
the change-proxy callback) are counted in `ErrorAction`. -/

structure PageState where
  captcha_present : Bool
  rate_limited : Bool
  on_google_maps : Bool
  on_search : Bool
  no_results_shown : Bool
  results_feed_shown : Bool
deriving DecidableEq, Repr

structure ErrorAction where
  handled : Bool
  reports : Nat
  rotations : Nat
deriving DecidableEq, Repr

/-- `ErrorHandler.check_page_errors`: CAPTCHA, then rate limiting, then
off-target URL, then (on a search URL) a missing results feed each report
the current proxy and rotate exactly once; a visible no-results message
or an intact feed report nothing. -/
def check_page_errors (pg : PageState) : ErrorAction :=
  if pg.captcha_present then ⟨true, 1, 1⟩
  else if pg.rate_limited then ⟨true, 1, 1⟩
  else if !pg.on_google_maps then ⟨true, 1, 1⟩
  else if pg.on_search then
    if pg.no_results_shown then ⟨false, 0, 0⟩
    else if !pg.results_feed_shown then ⟨true, 1, 1⟩
    else ⟨false, 0, 0⟩
  else ⟨false, 0, 0⟩

/-- Outcome of one `driver.get(url)` attempt inside `handle_timeout`. -/
inductive GetOutcome where
  | success
  | timeout
  | webdriverError
deriving DecidableEq, Repr

/-- Observable result of a `handle_timeout` run: the returned boolean,
the number of report-proxy-error calls, the number of change-proxy
calls, and the backoff sleeps performed, in order. -/
structure HTResult where
  success : Bool
  reports : Nat
  rotations : Nat
  waits : List Nat
deriving DecidableEq, Repr

/-- `ErrorHandler.handle_timeout`: on exhausted retries report the proxy
once and return `False`; otherwise sleep `2 ^ retry_count` seconds,
re-fetch the same URL (outcome given by the `attempt` oracle, indexed by
the retry count), return `True` on success, recurse on a further
timeout, and on a webdriver error report the proxy, rotate, and return
`False`. -/
def handle_timeout (attempt : Nat → GetOutcome)
    (retry_count max_retries : Nat) : HTResult :=
  if _h : max_retries ≤ retry_count then
    { success := false, reports := 1, rotations := 0, waits := [] }
  else
    let wait_time := 2 ^ retry_count
    match attempt retry_count with
    | GetOutcome.success =>
        { success := true, reports := 0, rotations := 0, waits := [wait_time] }
    | GetOutcome.timeout =>
        let r := handle_timeout attempt (retry_count + 1) max_retries
        { r with waits := wait_time :: r.waits }
    | GetOutcome.webdriverError =>
        { success := false, reports := 1, rotations := 1, waits := [wait_time] }
termination_by max_retries - retry_count
decreasing_by omega

/-! ## Operation sequences and sample data used by the claims -/

/-- Iterated `get_next_proxy`: the list of results of `k` successive calls
(with the fixed environment `env`) and the final state. -/
def nextCalls (env : HarvestEnv) : Nat → PMState → List (Option Proxy) × PMState
  | 0, s => ([], s)
  | k + 1, s =>
    let r := get_next_proxy env s
    let rest := nextCalls env k r.snd
    (r.fst :: rest.fst, rest.snd)

/-- A pool-manager operation considered by the disjointness claim:
a `report_proxy_failure` on a record or a `refresh_proxies` whose
harvester run produced the given list. -/
inductive PoolOp where
  | failure : Proxy → PoolOp
  | refresh : List Proxy → PoolOp
deriving DecidableEq, Repr

def applyOp : PoolOp → PMState → PMState
  | PoolOp.failure p, s => report_proxy_failure p s
  | PoolOp.refresh h, s => (refresh_proxies h s).snd

def applyOps : List PoolOp → PMState → PMState
  | [], s => s
  | op :: ops, s => applyOps ops (applyOp op s)

/-- Side condition on one operation: a refresh may only install a
duplicate-free harvest that avoids the current blacklist (a failure
report carries no condition). -/
def opOk : PoolOp → PMState → Bool
  | PoolOp.failure _, _ => true
  | PoolOp.refresh h, s =>
      decide h.Nodup && h.all (fun p => decide (p ∉ s.blacklisted_proxies))

def opsOk : List PoolOp → PMState → Bool
  | [], _ => true
  | op :: ops, s => opOk op s && opsOk ops (applyOp op s)

/-- The pool invariant: the working list is duplicate-free and no record
is both working and blacklisted. -/
def PoolInv (s : PMState) : Prop :=
  s.working_proxies.Nodup ∧
  ∀ p ∈ s.working_proxies, p ∉ s.blacklisted_proxies

/-! Sample proxies, records, states and oracles for witnesses and
counterexamples. -/

def pA : Proxy := { http := "http://10.0.0.1:8080", direct := false }

def pB : Proxy := { http := "http://10.0.0.2:8080", direct := false }

def pC : Proxy := { http := "http://10.0.0.3:8080", direct := false }

/-- A well-formed pool of two distinct proxies, cursor at 0, no failures. -/
def cleanState : PMState :=
  { working_proxies := [pA, pB], blacklisted_proxies := [],
    proxy_index := 0, consecutive_proxy_failures := 0,
    max_proxy_failures := 3, allow_direct_connection := true, save_log := [] }

/-- A pool whose working list contains the same record twice. -/
def dupState : PMState :=
  { working_proxies := [pA, pA], blacklisted_proxies := [],
    proxy_index := 0, consecutive_proxy_failures := 0,
    max_proxy_failures := 3, allow_direct_connection := true, save_log := [] }

/-- A pool that has reached the consecutive-failure threshold while the
working list is still non-empty. -/
def exhaustedState : PMState :=
  { working_proxies := [pA, pB], blacklisted_proxies := [],
    proxy_index := 0, consecutive_proxy_failures := 3,
    max_proxy_failures := 3, allow_direct_connection := true, save_log := [] }

/-- An environment with no usable cache and an empty harvester result. -/
def env0 : HarvestEnv := { cached := none, harvest := [] }

/-- Tested record with latency 9 s (bottom speed bucket, 10 points). -/
def rSlow : ProxyRecord :=
  { http := "http://10.0.0.1:8080", https := none, ip := "10.0.0.1",
    response_time := some (9 : ℚ), anonymity := none, score := none }

/-- Tested record with latency 6 s (same bottom speed bucket). -/
def rFast : ProxyRecord :=
  { http := "http://10.0.0.2:8080", https := none, ip := "10.0.0.2",
    response_time := some (6 : ℚ), anonymity := none, score := none }

/-- Elite record whose own address is 1.2.3.4. -/
def rElite : ProxyRecord :=
  { http := "http://1.2.3.4:80", https := some "https://1.2.3.4:80",
    ip := "1.2.3.4", response_time := some (1 : ℚ),
    anonymity := some "elite", score := none }

/-- A page on which only the rate-limit markers are visible. -/
def pgRate : PageState :=
  { captcha_present := false, rate_limited := true, on_google_maps := true,
    on_search := true, no_results_shown := false, results_feed_shown := true }

/-- A driver whose every fetch attempt times out. -/
def alwaysTimeout : Nat → GetOutcome := fun _ => GetOutcome.timeout

/-- A concrete single-proxy trial: the record at 10.0.0.1 fails, every
other record succeeds with a measured response time of 2 s. -/
def sampleTest (p : ProxyRecord) : Option ProxyRecord :=
  if p.ip = "10.0.0.1" then none
  else some { p with response_time := some (2 : ℚ) }

instance : IsTotal ProxyRecord (fun a b => score_key b ≤ score_key a) :=
  ⟨fun a b => Nat.le_total (score_key b) (score_key a)⟩

instance : IsTrans ProxyRecord (fun a b => score_key b ≤ score_key a) :=
  ⟨fun _ _ _ hab hbc => le_trans hbc hab⟩

instance : IsTotal ProxyRecord (fun a b => response_time_key a ≤ response_time_key b) :=
  ⟨fun a b => le_total (response_time_key a) (response_time_key b)⟩

instance : IsTrans ProxyRecord (fun a b => response_time_key a ≤ response_time_key b) :=
  ⟨fun _ _ _ hab hbc => le_trans hab hbc⟩

/-! ## Theorems -/

lemma blacklist_preserves_inv (p : Proxy) (s : PMState) (h : PoolInv s) :
    PoolInv (blacklist_proxy p s) := by
  obtain ⟨hnd, hdisj⟩ := h
  by_cases hd : p.direct
  · simpa [blacklist_proxy, hd, PoolInv] using ⟨hnd, hdisj⟩
  · by_cases hm : p ∈ s.blacklisted_proxies
    · simp only [blacklist_proxy, save_proxy_lists, hd, if_false, hm, if_true, PoolInv,
        Bool.false_eq_true]
      exact ⟨hnd.erase p, fun q hq => hdisj q (List.erase_subset _ _ hq)⟩
    · simp only [blacklist_proxy, save_proxy_lists, hd, if_false, hm, if_true, PoolInv,
        Bool.false_eq_true]
      refine ⟨hnd.erase p, fun q hq => ?_⟩
      have hq' := (List.Nodup.mem_erase_iff hnd).mp hq
      simp only [List.mem_append, List.mem_singleton, not_or]
      exact ⟨hdisj q hq'.2, hq'.1⟩

lemma report_failure_preserves_inv (p : Proxy) (s : PMState) (h : PoolInv s) :
    PoolInv (report_proxy_failure p s) :=
  blacklist_preserves_inv p _ h

/-- C1 (amended): starting from a pool state whose working list is
duplicate-free and disjoint from the blacklist, any sequence of
report-failure and refresh operations preserves the disjointness
`working ∩ blacklisted = ∅` (together with duplicate-freeness), provided
each refresh installs a duplicate-free harvest disjoint from the
then-current blacklist.  The unamended claim is refuted by
`pool_disjoint_fails_on_duplicate`. -/
theorem pool_disjoint_invariant (ops : List PoolOp) (s : PMState)
    (hinv : PoolInv s) (hops : opsOk ops s = true) :
    PoolInv (applyOps ops s) := by
  induction ops generalizing s with
  | nil => simpa [applyOps] using hinv
  | cons op ops ih =>
    rw [opsOk, Bool.and_eq_true] at hops
    obtain ⟨hop, hrest⟩ := hops
    refine ih _ ?_ hrest
    cases op with
    | failure p => exact report_failure_preserves_inv p s hinv
    | refresh h =>
      simp only [opOk, Bool.and_eq_true, decide_eq_true_eq, List.all_eq_true] at hop
      obtain ⟨hnd, hbl⟩ := hop
      by_cases he : h.isEmpty
      · simpa [applyOp, refresh_proxies, he] using hinv
      · simp only [applyOp, refresh_proxies, he, Bool.false_eq_true, if_false, PoolInv]
        exact ⟨hnd, fun q hq => hbl q hq⟩

/-- C1 counterexample: `report_failure` removes only the first occurrence
of a record from the working list, so with the same record listed twice in
`working` a single failure report leaves the record in both lists. -/
theorem pool_disjoint_fails_on_duplicate :
    pA ∈ (applyOps [PoolOp.failure pA] dupState).working_proxies ∧
    pA ∈ (applyOps [PoolOp.failure pA] dupState).blacklisted_proxies := by
  decide

theorem pool_disjoint_invariant_witness :
    (PoolInv cleanState ∧
     opsOk [PoolOp.failure pA, PoolOp.refresh [pC]] cleanState = true) ∧
    PoolInv (applyOps [PoolOp.failure pA, PoolOp.refresh [pC]] cleanState) :=
  ⟨⟨⟨by decide, by decide⟩, by decide⟩,
   pool_disjoint_invariant [PoolOp.failure pA, PoolOp.refresh [pC]] cleanState
     ⟨by decide, by decide⟩ (by decide)⟩

lemma get_next_proxy_rotate (env : HarvestEnv) (s : PMState)
    (hw : s.working_proxies ≠ [])
    (hf : s.consecutive_proxy_failures < s.max_proxy_failures)
    (hidx : s.proxy_index ≤ s.working_proxies.length) :
    get_next_proxy env s =
      (s.working_proxies[s.proxy_index % s.working_proxies.length]?,
       { s with proxy_index := s.proxy_index % s.working_proxies.length + 1 }) := by
  obtain ⟨w, bl, idx, cf, mf, ad, sl⟩ := s
  obtain ⟨q, rest, rfl⟩ := List.exists_cons_of_ne_nil hw
  have h1 : ¬(mf ≤ cf ∧ ad = true) := by
    rintro ⟨h, -⟩
    exact absurd hf (Nat.not_lt.mpr h)
  have h2 : step_load env ⟨q :: rest, bl, idx, cf, mf, ad, sl⟩ =
      (none, ⟨q :: rest, bl, idx, cf, mf, ad, sl⟩) := by
    simp [step_load]
  simp only [get_next_proxy, if_neg h1, h2]
  by_cases hle : (q :: rest).length ≤ idx
  · have hidx' : idx = rest.length + 1 := by
      simp only [List.length_cons] at hle hidx
      omega
    subst hidx'
    simp [dif_pos, List.length_cons, Nat.mod_self]
  · rw [dif_neg hle]
    have hlt : idx < (q :: rest).length := Nat.lt_of_not_le hle
    have hlt' : idx < rest.length + 1 := by simpa using hlt
    simp [Nat.mod_eq_of_lt hlt', List.getElem?_eq_getElem hlt]

lemma nextCalls_rotate (env : HarvestEnv) (k : Nat) :
    ∀ s : PMState, s.working_proxies ≠ [] →
      s.consecutive_proxy_failures < s.max_proxy_failures →
      s.proxy_index ≤ s.working_proxies.length →
      (nextCalls env k s).fst =
        (List.range k).map
          (fun j => s.working_proxies[(s.proxy_index + j) % s.working_proxies.length]?) := by
  induction k with
  | zero => intro s _ _ _; simp [nextCalls]
  | succ k ih =>
    intro s hw hf hidx
    have hn : 0 < s.working_proxies.length := List.length_pos.mpr hw
    have hrot := get_next_proxy_rotate env s hw hf hidx
    have hmod : s.proxy_index % s.working_proxies.length < s.working_proxies.length :=
      Nat.mod_lt _ hn
    have htail := ih { s with proxy_index := s.proxy_index % s.working_proxies.length + 1 }
      (by simpa using hw) (by simpa using hf) (by simpa using Nat.succ_le_of_lt hmod)
    simp only [nextCalls, hrot, htail]
    rw [List.range_succ_eq_map]
    simp only [List.map_cons, List.map_map, Nat.add_zero]
    congr 1
    apply List.map_congr_left
    intro j _
    simp only [Function.comp_apply]
    congr 1
    have h1 : s.proxy_index % s.working_proxies.length + 1 + j
        = s.proxy_index % s.working_proxies.length + (1 + j) := by omega
    rw [h1, Nat.mod_add_mod, Nat.add_comm 1 j]

/-- C2: from a freshly refreshed pool (cursor at 0) with a non-empty
working list and the consecutive-failure threshold not reached, `k`
successive `get_next_proxy` calls return the working proxies at cursor
positions `0, 1, ..., len-1, 0, 1, ...`, i.e. position `j mod len` on the
j-th call, in strict round-robin order. -/
theorem get_next_proxy_round_robin (env : HarvestEnv) (s : PMState) (k : Nat)
    (hw : s.working_proxies ≠ [])
    (hf : s.consecutive_proxy_failures < s.max_proxy_failures)
    (hidx : s.proxy_index = 0) :
    (nextCalls env k s).fst =
      (List.range k).map (fun j => s.working_proxies[j % s.working_proxies.length]?) := by
  have h := nextCalls_rotate env k s hw hf (by omega)
  simpa [hidx] using h

theorem get_next_proxy_round_robin_witness :
    (cleanState.working_proxies ≠ [] ∧
     cleanState.consecutive_proxy_failures < cleanState.max_proxy_failures ∧
     cleanState.proxy_index = 0) ∧
    (nextCalls env0 3 cleanState).fst =
      (List.range 3).map
        (fun j => cleanState.working_proxies[j % cleanState.working_proxies.length]?) :=
  ⟨⟨by decide, by decide, by decide⟩,
   get_next_proxy_round_robin env0 cleanState 3 (by decide) (by decide) (by decide)⟩

/-- C3: whenever the consecutive-failure count has reached the
`max_proxy_failures` threshold and direct connections are allowed,
`get_next_proxy` returns the direct-connection sentinel (a record with
the `direct` flag set, not a pooled proxy) and leaves the pool state,
including the rotation cursor, untouched. -/
theorem get_next_proxy_direct_sentinel (env : HarvestEnv) (s : PMState)
    (hf : s.max_proxy_failures ≤ s.consecutive_proxy_failures)
    (hd : s.allow_direct_connection = true) :
    get_next_proxy env s = (some directSentinel, s) ∧
    directSentinel.direct = true := by
  constructor
  · simp only [get_next_proxy, if_pos (And.intro hf hd)]
  · rfl

theorem get_next_proxy_direct_sentinel_witness :
    (exhaustedState.max_proxy_failures ≤ exhaustedState.consecutive_proxy_failures ∧
     exhaustedState.allow_direct_connection = true ∧
     exhaustedState.working_proxies ≠ []) ∧
    (get_next_proxy env0 exhaustedState = (some directSentinel, exhaustedState) ∧
     directSentinel.direct = true) :=
  ⟨⟨by decide, by decide, by decide⟩,
   get_next_proxy_direct_sentinel env0 exhaustedState (by decide) (by decide)⟩

/-- C4 (amended): `report_proxy_failure` increments the consecutive
failure count by one and, for a non-direct record, appends it to the
blacklist (unless already present), removes it from the working list and
persists the updated lists synchronously before returning; for the
direct-connection sentinel the lists are untouched and nothing is
persisted.  The unamended claim (persistence also on the direct
sentinel) is refuted by `report_failure_direct_does_not_persist`. -/
theorem report_proxy_failure_spec (s : PMState) (p : Proxy)
    (hnd : s.working_proxies.Nodup) :
    (report_proxy_failure p s).consecutive_proxy_failures =
      s.consecutive_proxy_failures + 1 ∧
    (if p.direct = true then
       (report_proxy_failure p s).working_proxies = s.working_proxies ∧
       (report_proxy_failure p s).blacklisted_proxies = s.blacklisted_proxies ∧
       (report_proxy_failure p s).save_log = s.save_log
     else
       p ∈ (report_proxy_failure p s).blacklisted_proxies ∧
       p ∉ (report_proxy_failure p s).working_proxies ∧
       (report_proxy_failure p s).save_log =
         ((report_proxy_failure p s).working_proxies,
          (report_proxy_failure p s).blacklisted_proxies) :: s.save_log) := by
  by_cases hd : p.direct
  · simp [report_proxy_failure, blacklist_proxy, hd]
  · by_cases hm : p ∈ s.blacklisted_proxies
    · simp [report_proxy_failure, blacklist_proxy, save_proxy_lists, hd, hm,
        hnd.not_mem_erase]
    · simp [report_proxy_failure, blacklist_proxy, save_proxy_lists, hd, hm,
        hnd.not_mem_erase, List.mem_append]

theorem report_proxy_failure_spec_witness :
    cleanState.working_proxies.Nodup ∧
    ((report_proxy_failure pA cleanState).consecutive_proxy_failures =
       cleanState.consecutive_proxy_failures + 1 ∧
     (if pA.direct = true then
        (report_proxy_failure pA cleanState).working_proxies = cleanState.working_proxies ∧
        (report_proxy_failure pA cleanState).blacklisted_proxies = cleanState.blacklisted_proxies ∧
        (report_proxy_failure pA cleanState).save_log = cleanState.save_log
      else
        pA ∈ (report_proxy_failure pA cleanState).blacklisted_proxies ∧
        pA ∉ (report_proxy_failure pA cleanState).working_proxies ∧
        (report_proxy_failure pA cleanState).save_log =
          ((report_proxy_failure pA cleanState).working_proxies,
           (report_proxy_failure pA cleanState).blacklisted_proxies) :: cleanState.save_log)) :=
  ⟨by decide, report_proxy_failure_spec cleanState pA (by decide)⟩

/-- C4 counterexample: reporting a failure of the direct-connection
sentinel returns without writing any snapshot (the early return in
`blacklist_proxy` precedes the `_save_proxy_lists` call), so no updated
state is persisted. -/
theorem report_failure_direct_does_not_persist :
    ¬ ((report_proxy_failure directSentinel cleanState).save_log =
        ((report_proxy_failure directSentinel cleanState).working_proxies,
         (report_proxy_failure directSentinel cleanState).blacklisted_proxies)
          :: cleanState.save_log) := by
  decide

lemma orderedInsert_score_filter (c : Nat) (x : ProxyRecord) (ys : List ProxyRecord) :
    (List.orderedInsert (fun a b => score_key b ≤ score_key a) x ys).filter
        (fun p => score_key p == c) =
      if score_key x = c then
        x :: ys.filter (fun p => score_key p == c)
      else ys.filter (fun p => score_key p == c) := by
  induction ys with
  | nil =>
    by_cases hx : score_key x = c <;>
      simp [List.orderedInsert, hx]
  | cons y ys ih =>
    by_cases hr : score_key y ≤ score_key x
    · simp only [List.orderedInsert]
      rw [if_pos hr]
      by_cases hx : score_key x = c <;> by_cases hy : score_key y = c <;>
        simp [hx, hy]
    · simp only [List.orderedInsert]
      rw [if_neg hr]
      by_cases hx : score_key x = c
      · have hy : ¬ score_key y = c := by omega
        simp [hx, hy, ih]
      · by_cases hy : score_key y = c <;> simp [hx, hy, ih]

lemma insertionSort_score_filter (c : Nat) (xs : List ProxyRecord) :
    (xs.insertionSort (fun a b => score_key b ≤ score_key a)).filter
        (fun p => score_key p == c) =
      xs.filter (fun p => score_key p == c) := by
  induction xs with
  | nil => rfl
  | cons x xs ih =>
    by_cases hx : score_key x = c <;>
      simp [List.insertionSort, orderedInsert_score_filter, hx, ih]

lemma filter_take_front (p : ProxyRecord → Bool) (n : Nat) (l : List ProxyRecord) :
    (l.take n).filter p <+: l.filter p := by
  conv_rhs => rw [← List.take_append_drop n l]
  rw [List.filter_append]
  exact List.prefix_append _ _

/-- C5 (amended): `select_best_proxies` returns exactly
`min count (number of records)` records, ordered by non-increasing
score, and equal scores keep their relative input order: the sort is
stable and uses the score alone, so for every score value the selected
records of that score are an order-preserving front segment of the
scored input records of that score.  Equal scores are NOT reordered by
latency; the latency tie-break of the unamended claim is refuted by
`select_best_ties_not_by_latency`. -/
theorem select_best_proxies_count_sorted (l : List ProxyRecord) (n : Nat) :
    (select_best_proxies l n).snd.length = min n l.length ∧
    (select_best_proxies l n).snd.Pairwise
      (fun a b => score_key b ≤ score_key a) ∧
    ∀ c : Nat,
      (select_best_proxies l n).snd.filter (fun p => score_key p == c) <+:
        (l.map scoreRecord).filter (fun p => score_key p == c) := by
  by_cases he : l.isEmpty
  · have hl : l = [] := by simpa [List.isEmpty_iff] using he
    subst hl
    refine ⟨by simp [select_best_proxies], by simp [select_best_proxies], ?_⟩
    intro c
    exact List.nil_prefix
  · refine ⟨?_, ?_, ?_⟩
    · simp only [select_best_proxies, he, Bool.false_eq_true, if_false]
      rw [List.length_take, (List.perm_insertionSort _ _).length_eq, List.length_map]
    · simp only [select_best_proxies, he, Bool.false_eq_true, if_false]
      exact List.Pairwise.sublist (List.take_sublist _ _)
        (List.sorted_insertionSort _ _)
    · intro c
      simp only [select_best_proxies, he, Bool.false_eq_true, if_false]
      have h1 := filter_take_front (fun p => score_key p == c) n
        ((l.map scoreRecord).insertionSort (fun a b => score_key b ≤ score_key a))
      rw [insertionSort_score_filter] at h1
      exact h1

/-- C5 counterexample: two records in the same speed bucket (latencies
9 s and 6 s) receive equal scores, and the selection keeps them in
input order (slower first) instead of ordering equal scores by
non-decreasing latency. -/
theorem select_best_ties_not_by_latency :
    ¬ ((select_best_proxies [rSlow, rFast] 2).snd.Pairwise
        (fun a b => score_key b < score_key a ∨
          (score_key a = score_key b ∧
           response_time_key a ≤ response_time_key b))) := by
  decide

/-- C6 (amended): `select_best_proxies` is NOT free of side effects: it
mutates every input record in place by writing the computed score into
its `score` key (first conjunct; the unamended purity claim is refuted
by `select_best_proxies_not_pure`).  The score it writes is a
deterministic function of the record through only its latency, anonymity
class and https capability (second conjunct). -/
theorem select_best_proxies_mutates :
    (∀ (l : List ProxyRecord) (n : Nat),
       (select_best_proxies l n).fst = l.map scoreRecord) ∧
    (∀ p q : ProxyRecord, response_time_key p = response_time_key q →
       anonymity_key p = anonymity_key q → truthyStr p.https = truthyStr q.https →
       computeScore p = computeScore q) := by
  constructor
  · intro l n
    by_cases he : l.isEmpty
    · have hl : l = [] := by simpa [List.isEmpty_iff] using he
      subst hl
      simp [select_best_proxies]
    · simp [select_best_proxies, he]
  · intro p q h1 h2 h3
    simp [computeScore, h1, h2, h3]

theorem select_best_proxies_mutates_witness :
    (select_best_proxies [rFast] 1).fst = [rFast].map scoreRecord ∧
    computeScore rSlow = computeScore rSlow :=
  ⟨select_best_proxies_mutates.1 [rFast] 1,
   select_best_proxies_mutates.2 rSlow rSlow rfl rfl rfl⟩

/-- C6 counterexample: the caller sees its input record changed after
the call (the `score` key, absent before, has been written), so the
selection is not side-effect free on its inputs. -/
theorem select_best_proxies_not_pure :
    (select_best_proxies [rFast] 1).fst ≠ [rFast] := by
  decide

/-- C7 (amended): the derived anonymity class is elite exactly when the
externally observed origin address differs from the proxy address AND is
resolvable (i.e. is not the unresolved marker), anonymous exactly when
it equals the proxy address, and transparent otherwise (differs but is
unresolvable).  The unamended claim (elite when the origin is neither
matching nor resolvable) is refuted by
`check_anonymity_claim_counterexample`. -/
theorem check_anonymity_spec (p : ProxyRecord) (r : String) :
    (check_anonymity p r = "elite" ↔ r ≠ p.ip ∧ resolvable r = true) ∧
    (check_anonymity p r = "anonymous" ↔ r = p.ip) ∧
    (check_anonymity p r = "transparent" ↔ r ≠ p.ip ∧ resolvable r = false) := by
  by_cases h1 : r = p.ip
  · subst h1
    simp +decide [check_anonymity, resolvable]
  · by_cases h2 : r = "unknown"
    · subst h2
      simp +decide [check_anonymity, resolvable, h1]
    · simp +decide [check_anonymity, resolvable, h1, h2, beq_iff_eq]

/-- C7 counterexample: with proxy address 1.2.3.4 and a resolvable,
different observed origin 5.6.7.8 the code classifies elite, while the
claim as stated (elite only when the origin is not resolvable) would
classify transparent. -/
theorem check_anonymity_claim_counterexample :
    check_anonymity rElite "5.6.7.8" ≠ claimAnonymity rElite "5.6.7.8" := by
  decide

lemma handle_timeout_exhaust_aux (attempt : Nat → GetOutcome) :
    ∀ (fuel r m : Nat), fuel = m - r →
      (∀ j, j < m → attempt j = GetOutcome.timeout) →
      handle_timeout attempt r m =
        { success := false, reports := 1, rotations := 0,
          waits := (List.range' r (m - r)).map (fun j => 2 ^ j) } := by
  intro fuel
  induction fuel with
  | zero =>
    intro r m hf _
    have hmr : m ≤ r := by omega
    rw [handle_timeout]
    simp [hmr, Nat.sub_eq_zero_of_le hmr]
  | succ fuel ih =>
    intro r m hf hto
    have hrm : r < m := by omega
    rw [handle_timeout]
    rw [dif_neg (by omega : ¬ m ≤ r)]
    rw [hto r hrm]
    simp only []
    rw [ih (r + 1) m (by omega) hto]
    have hsplit : m - r = (m - (r + 1)) + 1 := by omega
    rw [hsplit, List.range'_succ]
    simp

/-- C8: on consecutive timeouts `handle_timeout` retries the same URL
with exponential backoff waits of `2 ^ retry_count` seconds for retry
counts `0, 1, ..., max_retries - 1`; once the bound is exhausted it
reports the failing proxy exactly once (never per timeout, and no
rotation request) and returns False for that URL.  With the default
`max_retries = 3` the waits are 1 s, 2 s, 4 s. -/
theorem handle_timeout_backoff_abort (attempt : Nat → GetOutcome) (m : Nat)
    (hto : ∀ j, j < m → attempt j = GetOutcome.timeout) :
    handle_timeout attempt 0 m =
      { success := false, reports := 1, rotations := 0,
        waits := (List.range m).map (fun j => 2 ^ j) } := by
  have h := handle_timeout_exhaust_aux attempt (m - 0) 0 m rfl hto
  simpa [List.range_eq_range'] using h

theorem handle_timeout_backoff_abort_witness :
    (∀ j, j < 3 → alwaysTimeout j = GetOutcome.timeout) ∧
    handle_timeout alwaysTimeout 0 3 =
      { success := false, reports := 1, rotations := 0,
        waits := (List.range 3).map (fun j => 2 ^ j) } ∧
    (List.range 3).map (fun j => 2 ^ j) = [1, 2, 4] :=
  ⟨fun _ _ => rfl,
   handle_timeout_backoff_abort alwaysTimeout 3 (fun _ _ => rfl),
   by decide⟩

/-- C9: whenever `check_page_errors` detects a CAPTCHA, a rate limit, or
an off-target URL, it reports the current proxy as failed exactly once
and requests exactly one proxy rotation (and signals the page as
handled); it never retries the same proxy after a single detection. -/
theorem check_page_errors_rotates_once (pg : PageState)
    (h : pg.captcha_present = true ∨ pg.rate_limited = true ∨
         pg.on_google_maps = false) :
    check_page_errors pg = { handled := true, reports := 1, rotations := 1 } := by
  obtain ⟨c, r, m, se, nr, rf⟩ := pg
  cases c <;> cases r <;> cases m <;> simp_all [check_page_errors]

theorem check_page_errors_rotates_once_witness :
    (pgRate.captcha_present = true ∨ pgRate.rate_limited = true ∨
     pgRate.on_google_maps = false) ∧
    check_page_errors pgRate = { handled := true, reports := 1, rotations := 1 } :=
  ⟨Or.inr (Or.inl rfl),
   check_page_errors_rotates_once pgRate (Or.inr (Or.inl rfl))⟩

/-- C10: whatever order the worker pool completes the trials in (any
permutation `completed` of the submitted batch), `test_proxies` returns
exactly the records whose single trial succeeded (a permutation of the
successful results, so nothing else enters the output), sorted in
non-decreasing order of measured response time, fastest first. -/
theorem test_proxies_spec (f : ProxyRecord → Option ProxyRecord)
    (proxies completed : List ProxyRecord) (hperm : completed.Perm proxies) :
    (test_proxies f completed).Perm (proxies.filterMap f) ∧
    (test_proxies f completed).Pairwise
      (fun a b => response_time_key a ≤ response_time_key b) := by
  constructor
  · exact (List.perm_insertionSort _ _).trans (hperm.filterMap f)
  · exact List.sorted_insertionSort _ _

theorem test_proxies_spec_witness :
    ([rSlow, rFast] : List ProxyRecord).Perm [rFast, rSlow] ∧
    ((test_proxies sampleTest [rSlow, rFast]).Perm
       ([rFast, rSlow].filterMap sampleTest) ∧
     (test_proxies sampleTest [rSlow, rFast]).Pairwise
       (fun a b => response_time_key a ≤ response_time_key b)) :=
  ⟨by decide,
   test_proxies_spec sampleTest [rFast, rSlow] [rSlow, rFast] (by decide)⟩
